import Mathlib

/-!
Verification development for a streaming-capable speech-to-text transducer
system: a Conformer encoder with a noised/clean consistency branch, a
streaming recurrent encoder, and the training step that blends the primary
transducer loss with an annealed auxiliary loss.

The definitions below are shallow embeddings of the Python source
(tensorflow_asr/models/conformer.py, tensorflow_asr/models/streaming_transducer.py,
tensorflow_asr/runners/transducer_runners.py).  Tensors are modelled as
lists of rational rows, floating-point scalars as rationals, and raising
ValueError at construction time as returning Except.error.
-/

/-- The annealing weight computed inside ConformerEncoder.call:
`w = float(ep); if w <= 8: w = 1 - (w-1)/7 else: w = 0`, with float
arithmetic modelled over the rationals. -/
def conformer_w (ep : ℕ) : ℚ :=
  if (ep : ℚ) ≤ 8 then 1 - ((ep : ℚ) - 1) / 7 else 0

/-- The trainer coefficient computed inside TransducerTrainer._train_step:
`lambda_ = 0; if float(ep) <= 8: lambda_ = 1 - float(ep-1)/7`, where `ep-1`
is computed in integer arithmetic before the cast. -/
def trainer_lambda (ep : ℕ) : ℚ :=
  if (ep : ℚ) ≤ 8 then 1 - (((ep : ℤ) - 1 : ℤ) : ℚ) / 7 else 0

theorem trainer_lambda_eq_conformer_w (ep : ℕ) : trainer_lambda ep = conformer_w ep := by
  unfold trainer_lambda conformer_w
  push_cast
  rfl

/- ----------------------------------------------------------------
Constructor-time configuration validation (conformer.py).
---------------------------------------------------------------- -/

/-- The two attention variants MHSAModule.__init__ can construct. -/
inductive MHAVariant
  | relmha
  | mha

/-- MHSAModule.__init__ restricted to its mha_type dispatch: "relmha" and
"mha" construct the corresponding attention layer, anything else raises
ValueError. -/
def mhsa_module_init (mha_type : String) : Except String MHAVariant :=
  if mha_type = "relmha" then Except.ok MHAVariant.relmha
  else if mha_type = "mha" then Except.ok MHAVariant.mha
  else Except.error "mha_type must be either 'mha' or 'relmha'"

/-- The two subsampling variants ConformerEncoder.__init__ can construct. -/
inductive SubsamplingVariant
  | vgg
  | conv2d

/-- ConformerEncoder.__init__ restricted to its subsampling dispatch:
`subsampling.pop("type", "conv2d")`, then "vgg" or "conv2d" selects a class
and anything else raises ValueError. -/
def conformer_subsampling_init (ty : Option String) : Except String SubsamplingVariant :=
  let nm := ty.getD "conv2d"
  if nm = "vgg" then Except.ok SubsamplingVariant.vgg
  else if nm = "conv2d" then Except.ok SubsamplingVariant.conv2d
  else Except.error "subsampling must be either  'conv2d' or 'vgg'"

/-- The three positional-encoding variants ConformerEncoder.__init__ can
construct ("subsampling" selects a linear Activation pass-through). -/
inductive PEVariant
  | sinusoid
  | sinusoidConcat
  | linearPassthrough

/-- ConformerEncoder.__init__ restricted to its positional_encoding
dispatch: "sinusoid", "sinusoid_concat" and "subsampling" construct a
layer, anything else raises ValueError with a message naming only
"sinusoid" and "subsampling". -/
def conformer_pe_init (positional_encoding : String) : Except String PEVariant :=
  if positional_encoding = "sinusoid" then Except.ok PEVariant.sinusoid
  else if positional_encoding = "sinusoid_concat" then Except.ok PEVariant.sinusoidConcat
  else if positional_encoding = "subsampling" then Except.ok PEVariant.linearPassthrough
  else Except.error "positional_encoding must be either 'sinusoid' or 'subsampling'"

/-- The overall time_reduction_factor loop of StreamingTransducerEncoder.__init__:
start from 1 and multiply in each per-block factor that is strictly positive. -/
def streaming_time_reduction_factor (reductions : ℕ → ℕ) (nlayers : ℕ) : ℕ :=
  (List.range nlayers).foldl (fun acc i => if reductions i > 0 then acc * reductions i else acc) 1

/-- The default reductions dictionary {0: 3, 1: 2} as a total function on
block indices (missing keys read as 0 via reductions.get(i, 0)). -/
def default_reductions : ℕ → ℕ :=
  fun i => if i = 0 then 3 else if i = 1 then 2 else 0

/- ----------------------------------------------------------------
Theorems: annealing weight (C3, C6).
---------------------------------------------------------------- -/

theorem conformer_w_of_le (ep : ℕ) (h : ep ≤ 8) :
    conformer_w ep = 1 - ((ep : ℚ) - 1) / 7 := by
  unfold conformer_w
  rw [if_pos (by exact_mod_cast h)]

theorem conformer_w_of_ge (ep : ℕ) (h : 9 ≤ ep) : conformer_w ep = 0 := by
  unfold conformer_w
  rw [if_neg]
  intro hle
  have : (9 : ℚ) ≤ (ep : ℚ) := by exact_mod_cast h
  linarith

theorem conformer_w_nonneg (ep : ℕ) : 0 ≤ conformer_w ep := by
  unfold conformer_w
  by_cases hc : (ep : ℚ) ≤ 8
  · rw [if_pos hc]
    linarith
  · rw [if_neg hc]

theorem conformer_w_le_one (ep : ℕ) (h : 1 ≤ ep) : conformer_w ep ≤ 1 := by
  unfold conformer_w
  by_cases hc : (ep : ℚ) ≤ 8
  · rw [if_pos hc]
    have : (1 : ℚ) ≤ (ep : ℚ) := by exact_mod_cast h
    linarith
  · rw [if_neg hc]
    norm_num

theorem conformer_w_antitone (a b : ℕ) (ha : 1 ≤ a) (hab : a ≤ b) :
    conformer_w b ≤ conformer_w a := by
  have hcast : (a : ℚ) ≤ (b : ℚ) := by exact_mod_cast hab
  unfold conformer_w
  by_cases hb : (b : ℚ) ≤ 8
  · rw [if_pos hb, if_pos (le_trans hcast hb)]
    linarith
  · rw [if_neg hb]
    by_cases ha8 : (a : ℚ) ≤ 8
    · rw [if_pos ha8]
      have : (1 : ℚ) ≤ (a : ℚ) := by exact_mod_cast ha
      linarith
    · rw [if_neg ha8]

/-- C3: for every positive integer ep the annealing weight of the Conformer
encoder equals 1 - (ep-1)/7 when ep ≤ 8 and 0 when ep ≥ 9, the trainer
coefficient λ follows the same formula, and consequently w lies in [0,1],
is monotonically non-increasing in ep, and vanishes for every ep ≥ 9. -/
theorem annealing_weight_spec (ep : ℕ) (h : 1 ≤ ep) :
    (ep ≤ 8 → conformer_w ep = 1 - ((ep : ℚ) - 1) / 7) ∧
    (9 ≤ ep → conformer_w ep = 0) ∧
    trainer_lambda ep = conformer_w ep ∧
    0 ≤ conformer_w ep ∧ conformer_w ep ≤ 1 ∧
    (∀ ep2 : ℕ, ep ≤ ep2 → conformer_w ep2 ≤ conformer_w ep) := by
  refine ⟨conformer_w_of_le ep, conformer_w_of_ge ep, trainer_lambda_eq_conformer_w ep,
    conformer_w_nonneg ep, conformer_w_le_one ep h, fun ep2 h2 => ?_⟩
  exact conformer_w_antitone ep ep2 h h2

/-- Witness for C3: the annealing-weight properties instantiated at ep = 3. -/
theorem annealing_weight_spec_witness :
    conformer_w 3 = 1 - ((3 : ℚ) - 1) / 7 ∧
    trainer_lambda 3 = conformer_w 3 ∧ 0 ≤ conformer_w 3 ∧ conformer_w 3 ≤ 1 := by
  have h := annealing_weight_spec 3 (by norm_num)
  exact ⟨h.1 (by norm_num), h.2.2.1, h.2.2.2.1, h.2.2.2.2.1⟩

/-- C6 counterexample: the claim asserts w(8) ≈ 0.142857, but the code
computes w(8) = 1 - (8-1)/7 = 0, which is not within any reasonable
tolerance of 0.142857. -/
theorem annealing_values_counterexample :
    conformer_w 8 = 0 ∧ |conformer_w 8 - 142857 / 1000000| > 1 / 8 := by
  have h0 : conformer_w 8 = 0 := by unfold conformer_w; norm_num
  refine ⟨h0, ?_⟩
  rw [h0, zero_sub, abs_neg, abs_of_nonneg (by norm_num)]
  norm_num

/-- C6 amended: w(1) = 1, w(7) ≈ 0.142857 (exactly 1/7), w(8) = 0,
w(9) = 0, and w is monotonically non-increasing over ep = 1..20. -/
theorem annealing_values (ep : ℕ) (h1 : 1 ≤ ep) (h20 : ep ≤ 20) :
    conformer_w 1 = 1 ∧ conformer_w 7 = 1 / 7 ∧ conformer_w 8 = 0 ∧ conformer_w 9 = 0 ∧
    (∀ ep2 : ℕ, ep ≤ ep2 → ep2 ≤ 20 → conformer_w ep2 ≤ conformer_w ep) := by
  refine ⟨?_, ?_, ?_, ?_, fun ep2 hle _ => conformer_w_antitone ep ep2 h1 hle⟩
  · unfold conformer_w; norm_num
  · unfold conformer_w; norm_num
  · unfold conformer_w; norm_num
  · unfold conformer_w; norm_num

/-- Witness for the amended C6 at ep = 2, ep2 = 5. -/
theorem annealing_values_witness :
    conformer_w 1 = 1 ∧ conformer_w 8 = 0 ∧ conformer_w 5 ≤ conformer_w 2 := by
  have h := annealing_values 2 (by norm_num) (by norm_num)
  exact ⟨h.1, h.2.2.1, h.2.2.2.2 5 (by norm_num) (by norm_num)⟩

/- ----------------------------------------------------------------
Theorems: streaming time reduction factor (C7).
---------------------------------------------------------------- -/

theorem streaming_trf_foldl_eq_prod (reductions : ℕ → ℕ) (nlayers : ℕ) :
    streaming_time_reduction_factor reductions nlayers =
      ∏ i ∈ Finset.range nlayers, (if 0 < reductions i then reductions i else 1) := by
  unfold streaming_time_reduction_factor
  induction nlayers with
  | zero => simp
  | succ n ih =>
    rw [List.range_succ, List.foldl_append, Finset.prod_range_succ, ih]
    simp only [List.foldl_cons, List.foldl_nil]
    by_cases hp : 0 < reductions n
    · rw [if_pos hp, if_pos hp]
    · rw [if_neg hp, if_neg hp, Nat.mul_one]

/-- C7: the streaming encoder's time_reduction_factor is the product of the
per-block reduction factors with zero factors contributing 1; with the
default factors {0: 3, 1: 2} and 8 layers it equals 6. -/
theorem time_reduction_factor_spec :
    (∀ (reductions : ℕ → ℕ) (nlayers : ℕ),
      streaming_time_reduction_factor reductions nlayers =
        ∏ i ∈ Finset.range nlayers, (if 0 < reductions i then reductions i else 1)) ∧
    streaming_time_reduction_factor default_reductions 8 = 6 := by
  exact ⟨streaming_trf_foldl_eq_prod, by decide⟩

/- ----------------------------------------------------------------
Theorems: constructor-time configuration errors (C8, C10).
---------------------------------------------------------------- -/

/-- C8: constructing an MHSA module with either known attention variant
("relmha", "mha") succeeds, any other tag raises a configuration error,
and constructing a Conformer encoder with a subsampling kind other than
"vgg" or "conv2d" raises a configuration error. -/
theorem construction_validation_spec :
    mhsa_module_init "relmha" = Except.ok MHAVariant.relmha ∧
    mhsa_module_init "mha" = Except.ok MHAVariant.mha ∧
    (∀ s : String, s ≠ "relmha" → s ≠ "mha" →
      mhsa_module_init s = Except.error "mha_type must be either 'mha' or 'relmha'") ∧
    (∀ s : String, s ≠ "vgg" → s ≠ "conv2d" →
      conformer_subsampling_init (some s) =
        Except.error "subsampling must be either  'conv2d' or 'vgg'") := by
  refine ⟨rfl, rfl, fun s h1 h2 => ?_, fun s h1 h2 => ?_⟩
  · unfold mhsa_module_init
    rw [if_neg h1, if_neg h2]
  · unfold conformer_subsampling_init
    simp only [Option.getD_some]
    rw [if_neg h1, if_neg h2]

/-- Witness for C8: the invalid tags "gau" and "stride" are rejected. -/
theorem construction_validation_spec_witness :
    mhsa_module_init "gau" = Except.error "mha_type must be either 'mha' or 'relmha'" ∧
    conformer_subsampling_init (some "stride") =
      Except.error "subsampling must be either  'conv2d' or 'vgg'" :=
  ⟨construction_validation_spec.2.2.1 "gau" (by decide) (by decide),
   construction_validation_spec.2.2.2 "stride" (by decide) (by decide)⟩

/-- C10: positional-encoding construction succeeds exactly for "sinusoid",
"sinusoid_concat" and "subsampling"; every other kind raises ValueError,
whose fixed message names only "sinusoid" and "subsampling" even though
"sinusoid_concat" is accepted. -/
theorem positional_encoding_validation_spec :
    (∀ s : String, (∃ k, conformer_pe_init s = Except.ok k) ↔
      (s = "sinusoid" ∨ s = "sinusoid_concat" ∨ s = "subsampling")) ∧
    conformer_pe_init "sinusoid_concat" = Except.ok PEVariant.sinusoidConcat ∧
    (∀ s : String, s ≠ "sinusoid" → s ≠ "sinusoid_concat" → s ≠ "subsampling" →
      conformer_pe_init s =
        Except.error "positional_encoding must be either 'sinusoid' or 'subsampling'") := by
  refine ⟨fun s => ⟨fun hk => ?_, fun hs => ?_⟩, rfl, fun s h1 h2 h3 => ?_⟩
  · by_contra hne
    push_neg at hne
    obtain ⟨h1, h2, h3⟩ := hne
    obtain ⟨k, hk⟩ := hk
    unfold conformer_pe_init at hk
    rw [if_neg h1, if_neg h2, if_neg h3] at hk
    exact Except.noConfusion hk
  · rcases hs with h | h | h <;> subst h
    · exact ⟨PEVariant.sinusoid, rfl⟩
    · exact ⟨PEVariant.sinusoidConcat, rfl⟩
    · exact ⟨PEVariant.linearPassthrough, rfl⟩
  · unfold conformer_pe_init
    rw [if_neg h1, if_neg h2, if_neg h3]

/-- Witness for C10: "sinusoid" is accepted and "fourier" is rejected with
the fixed error message. -/
theorem positional_encoding_validation_spec_witness :
    (∃ k, conformer_pe_init "sinusoid" = Except.ok k) ∧
    conformer_pe_init "fourier" =
      Except.error "positional_encoding must be either 'sinusoid' or 'subsampling'" :=
  ⟨(positional_encoding_validation_spec.1 "sinusoid").mpr (Or.inl rfl),
   positional_encoding_validation_spec.2.2 "fourier" (by decide) (by decide) (by decide)⟩

/- ----------------------------------------------------------------
Trainer loss computation (transducer_runners.py).
---------------------------------------------------------------- -/

/-- tf.nn.compute_average_loss: the per-example losses summed and divided by
the global batch size. -/
def compute_average_loss (per_example : List ℚ) (global_batch_size : ℕ) : ℚ :=
  per_example.sum / (global_batch_size : ℚ)

/-- The loss values a training step produces: the per-example loss tensor
and the averaged scalar fed to the gradient computation. -/
structure TrainStepLoss where
  perExample : List ℚ
  trainLoss : ℚ

/-- TransducerTrainer._train_step on the Conformer path, restricted to its
loss arithmetic: the model returns (logits, mse_loss), rnnt_loss gives one
scalar per example, then `per_train_loss += lambda_ * mse_loss` and
`train_loss = tf.nn.compute_average_loss(per_train_loss, global_batch_size)`. -/
def transducer_train_step (rnnt_per_example : List ℚ) (mse_loss : ℚ) (ep : ℕ)
    (global_batch_size : ℕ) : TrainStepLoss :=
  let per := rnnt_per_example.map (fun l => l + trainer_lambda ep * mse_loss)
  { perExample := per, trainLoss := compute_average_loss per global_batch_size }

/-- TransducerTrainerGA._train_step restricted to its loss arithmetic: the
per-example loss is the rnnt loss alone (no epoch is passed to the model and
no auxiliary term is added) before the global-batch-size average. -/
def transducer_ga_train_step (rnnt_per_example : List ℚ)
    (global_batch_size : ℕ) : TrainStepLoss :=
  { perExample := rnnt_per_example,
    trainLoss := compute_average_loss rnnt_per_example global_batch_size }

/- ----------------------------------------------------------------
Conformer encoder forward pass (conformer.py ConformerEncoder.call).
---------------------------------------------------------------- -/

/-- A tensor as a list of feature rows, the leading batch/time axes
flattened into the outer list and the last (feature) axis the inner list. -/
abbrev QTensor := List (List ℚ)

/-- Scalar-tensor multiplication, elementwise. -/
def tensorScale (c : ℚ) (x : QTensor) : QTensor :=
  x.map (List.map (fun v => c * v))

/-- Elementwise tensor addition of same-shape tensors. -/
def tensorAdd (x y : QTensor) : QTensor :=
  List.zipWith (List.zipWith (· + ·)) x y

/-- The sum of squared differences along one feature row. -/
def rowSumSqDiff (x y : List ℚ) : ℚ :=
  (List.zipWith (fun a b => (a - b) ^ 2) x y).sum

/-- tf.keras.losses.MeanSquaredError with Reduction.SUM: the squared
differences are averaged over the last (feature) axis per position, and
those per-position means are summed over the remaining axes. -/
def keras_mse_sum (x y : QTensor) : ℚ :=
  (List.zipWith (fun r s => rowSumSqDiff r s / (r.length : ℚ)) x y).sum

/-- The plain sum of squared differences over every tensor element. -/
def sum_sq_diff (x y : QTensor) : ℚ :=
  (List.zipWith rowSumSqDiff x y).sum

/-- Two tensors have the same shape: equal row counts and rowwise equal
feature widths. -/
abbrev sameShape (x y : QTensor) : Prop :=
  x.map List.length = y.map List.length

/-- The ConformerEncoder layers the claims depend on, as abstract
functions: Gaussian-noise application, subsampling, linear projection,
positional encoding, dropout, and the stack of Conformer blocks (each
taking the running features and the positional-encoding tensor). -/
structure ConformerEncoderM (ι : Type) where
  gn : ι → ι
  conv_subsampling : ι → QTensor
  linear : QTensor → QTensor
  pe : QTensor → QTensor
  dropout : QTensor → QTensor
  blocks : List (QTensor → QTensor → QTensor)

/-- The noised branch of ConformerEncoder.call: Gaussian noise, then
subsampling, linear projection, positional encoding taken at that point,
dropout, and the full Conformer-block stack. -/
def noised_output {ι : Type} (m : ConformerEncoderM ι) (inputs : ι) : QTensor :=
  let o1a := m.linear (m.conv_subsampling (m.gn inputs))
  m.blocks.foldl (fun acc b => b acc (m.pe o1a)) (m.dropout o1a)

/-- The clean branch of ConformerEncoder.call: the unperturbed inputs
through subsampling, linear projection and dropout only — it does not pass
through the Conformer blocks. -/
def clean_output {ι : Type} (m : ConformerEncoderM ι) (inputs : ι) : QTensor :=
  m.dropout (m.linear (m.conv_subsampling inputs))

/-- ConformerEncoder.call: returns `((1-w)*output1 + w*output2, mse_loss)`
where w is the annealing weight at epoch ep and mse_loss is
MeanSquaredError with SUM reduction between the two branch outputs. -/
def ConformerEncoderM.call {ι : Type} (m : ConformerEncoderM ι) (inputs : ι) (ep : ℕ) :
    QTensor × ℚ :=
  (tensorAdd (tensorScale (1 - conformer_w ep) (noised_output m inputs))
             (tensorScale (conformer_w ep) (clean_output m inputs)),
   keras_mse_sum (noised_output m inputs) (clean_output m inputs))

/-- A concrete encoder instance with zero noise (gn is the identity),
identity subsampling, projection and dropout, and one Conformer block that
adds 1 to every entry. -/
def demoEncoder : ConformerEncoderM QTensor where
  gn := id
  conv_subsampling := id
  linear := id
  pe := id
  dropout := id
  blocks := [fun x _ => x.map (List.map (fun v => v + 1))]

/-- A concrete encoder instance with zero noise and an empty block stack,
so both branches coincide. -/
def demoEncoderIdentity : ConformerEncoderM QTensor where
  gn := id
  conv_subsampling := id
  linear := id
  pe := id
  dropout := id
  blocks := []

/-- A concrete input tensor: one position with two features. -/
def demoInput : QTensor := [[1, 2]]

/- ----------------------------------------------------------------
Theorems: training-step loss composition (C1).
---------------------------------------------------------------- -/

/-- C1 counterexample: the gradient-accumulation trainer's per-example loss
is the primary rnnt loss alone; at primary loss [0], auxiliary loss 1 and
epoch 1 it differs from primary + λ * auxiliary. -/
theorem train_step_loss_counterexample :
    (transducer_ga_train_step [0] 1).perExample ≠
      List.map (fun l => l + trainer_lambda 1 * 1) [0] := by
  simp only [transducer_ga_train_step, trainer_lambda, List.map_cons, List.map_nil]
  norm_num

/-- C1 amended: in the plain trainer the per-example total loss is the
primary rnnt loss plus λ times the scalar auxiliary loss broadcast to every
example, averaged over the global batch size; the gradient-accumulation
trainer computes only the primary loss (it passes no epoch and adds no
auxiliary term) before the same global-batch-size average. -/
theorem train_step_loss_spec (primary : List ℚ) (mse_loss : ℚ) (ep gbs : ℕ) :
    (transducer_train_step primary mse_loss ep gbs).perExample =
      primary.map (fun l => l + trainer_lambda ep * mse_loss) ∧
    (transducer_train_step primary mse_loss ep gbs).trainLoss =
      (primary.map (fun l => l + trainer_lambda ep * mse_loss)).sum / (gbs : ℚ) ∧
    (transducer_ga_train_step primary gbs).perExample = primary ∧
    (transducer_ga_train_step primary gbs).trainLoss = primary.sum / (gbs : ℚ) :=
  ⟨rfl, rfl, rfl, rfl⟩

/- ----------------------------------------------------------------
Theorems: first-epoch blend (C9).
---------------------------------------------------------------- -/

theorem zipWith_add_scale_zero_one (r s : List ℚ) (h : r.length = s.length) :
    List.zipWith (· + ·) (r.map (fun v => (0 : ℚ) * v)) (s.map (fun v => (1 : ℚ) * v)) = s := by
  induction r generalizing s with
  | nil =>
    cases s with
    | nil => rfl
    | cons b bs => simp at h
  | cons a as ih =>
    cases s with
    | nil => simp at h
    | cons b bs =>
      simp only [List.map_cons, List.zipWith_cons_cons]
      rw [ih bs (by simpa using h)]
      norm_num

theorem tensorAdd_scale_zero_one (x y : QTensor) (h : sameShape x y) :
    tensorAdd (tensorScale 0 x) (tensorScale 1 y) = y := by
  induction x generalizing y with
  | nil =>
    cases y with
    | nil => rfl
    | cons s ss => simp [sameShape] at h
  | cons r rs ih =>
    cases y with
    | nil => simp [sameShape] at h
    | cons s ss =>
      simp only [sameShape, List.map_cons, List.cons.injEq] at h
      simp only [tensorAdd, tensorScale, List.map_cons, List.zipWith_cons_cons]
      rw [zipWith_add_scale_zero_one r s h.1]
      have := ih ss h.2
      simp only [tensorAdd, tensorScale] at this
      rw [this]

/-- C9: at ep = 1 the blend weight is 1, so the encoding returned by the
Conformer encoder is exactly the clean-branch output (subsampling, linear
projection and dropout only), with no contribution from any Conformer
block, since (1-w)*output_noised + w*output_clean = output_clean. -/
theorem first_epoch_blend_spec {ι : Type} (m : ConformerEncoderM ι) (inputs : ι)
    (h : sameShape (noised_output m inputs) (clean_output m inputs)) :
    (m.call inputs 1).1 = clean_output m inputs := by
  have hw : conformer_w 1 = 1 := by unfold conformer_w; norm_num
  show tensorAdd (tensorScale (1 - conformer_w 1) (noised_output m inputs))
      (tensorScale (conformer_w 1) (clean_output m inputs)) = clean_output m inputs
  rw [hw]
  norm_num
  exact tensorAdd_scale_zero_one _ _ h

/-- Witness for C9: the concrete encoder instance at ep = 1 returns its
clean-branch output. -/
theorem first_epoch_blend_spec_witness :
    sameShape (noised_output demoEncoder demoInput) (clean_output demoEncoder demoInput) ∧
    (demoEncoder.call demoInput 1).1 = clean_output demoEncoder demoInput :=
  ⟨by decide, first_epoch_blend_spec demoEncoder demoInput (by decide)⟩

/- ----------------------------------------------------------------
Theorems: auxiliary loss value (C4) and vanishing (C5).
---------------------------------------------------------------- -/

theorem rowSumSqDiff_self (r : List ℚ) : rowSumSqDiff r r = 0 := by
  induction r with
  | nil => rfl
  | cons a as ih =>
    simp only [rowSumSqDiff, List.zipWith_cons_cons, List.sum_cons] at *
    rw [ih]
    ring

theorem keras_mse_sum_self (x : QTensor) : keras_mse_sum x x = 0 := by
  induction x with
  | nil => rfl
  | cons r rs ih =>
    simp only [keras_mse_sum, List.zipWith_cons_cons, List.sum_cons] at *
    rw [ih, rowSumSqDiff_self]
    simp

/-- C4 counterexample: on the concrete encoder instance the auxiliary loss
(MeanSquaredError with SUM reduction) is 1, while the sum over all tensor
elements of squared differences is 2. -/
theorem aux_loss_sum_counterexample :
    (demoEncoder.call demoInput 1).2 ≠
      sum_sq_diff (noised_output demoEncoder demoInput) (clean_output demoEncoder demoInput) := by
  norm_num [ConformerEncoderM.call, demoEncoder, demoInput, noised_output, clean_output,
    keras_mse_sum, sum_sq_diff, rowSumSqDiff]

/-- C4 amended: the auxiliary loss is MeanSquaredError with SUM reduction,
which averages squared differences over the feature axis at each position
and sums over positions; with a uniform feature width D it equals the sum
of squared differences divided by D, not the plain sum. -/
theorem aux_loss_value_spec {ι : Type} (m : ConformerEncoderM ι) (inputs : ι) (ep D : ℕ)
    (hD : 0 < D) (hrows : ∀ r ∈ noised_output m inputs, r.length = D)
    (hshape : sameShape (noised_output m inputs) (clean_output m inputs)) :
    (m.call inputs ep).2 =
      sum_sq_diff (noised_output m inputs) (clean_output m inputs) / (D : ℚ) := by
  show keras_mse_sum (noised_output m inputs) (clean_output m inputs) = _
  clear hD
  generalize noised_output m inputs = x at hrows hshape ⊢
  generalize clean_output m inputs = y at hshape ⊢
  induction x generalizing y with
  | nil =>
    cases y with
    | nil => simp [keras_mse_sum, sum_sq_diff]
    | cons s ss => simp [sameShape] at hshape
  | cons r rs ih =>
    cases y with
    | nil => simp [sameShape] at hshape
    | cons s ss =>
      simp only [sameShape, List.map_cons, List.cons.injEq] at hshape
      have hr : r.length = D := hrows r (List.mem_cons_self r rs)
      simp only [keras_mse_sum, sum_sq_diff, List.zipWith_cons_cons, List.sum_cons] at *
      rw [ih (fun q hq => hrows q (List.mem_cons_of_mem r hq)) ss hshape.2, hr, add_div]

/-- Witness for C4: on the concrete encoder (feature width 2), the auxiliary
loss equals the sum of squared differences divided by 2. -/
theorem aux_loss_value_spec_witness :
    (0 < 2 ∧ (∀ r ∈ noised_output demoEncoder demoInput, r.length = 2) ∧
      sameShape (noised_output demoEncoder demoInput) (clean_output demoEncoder demoInput)) ∧
    (demoEncoder.call demoInput 1).2 =
      sum_sq_diff (noised_output demoEncoder demoInput)
        (clean_output demoEncoder demoInput) / (2 : ℚ) :=
  ⟨⟨by decide, by decide, by decide⟩,
   aux_loss_value_spec demoEncoder demoInput 1 2 (by decide) (by decide) (by decide)⟩

/-- C5 counterexample: on the concrete encoder the Gaussian noise is the
identity (standard deviation 0), yet the auxiliary loss is nonzero, because
only the noised branch passes through the Conformer blocks. -/
theorem aux_loss_zero_counterexample :
    demoEncoder.gn = id ∧ (demoEncoder.call demoInput 1).2 ≠ 0 :=
  ⟨rfl, by
    norm_num [ConformerEncoderM.call, demoEncoder, demoInput, noised_output, clean_output,
      keras_mse_sum, rowSumSqDiff]⟩

/-- C5 amended: the auxiliary loss is 0 whenever the noised branch and the
clean branch produce identical outputs; forcing the noise to zero gives the
branches identical inputs but does not by itself make the outputs equal,
since only the noised branch passes through the Conformer blocks. -/
theorem aux_loss_zero_spec {ι : Type} (m : ConformerEncoderM ι) (inputs : ι) (ep : ℕ)
    (h : noised_output m inputs = clean_output m inputs) :
    (m.call inputs ep).2 = 0 := by
  show keras_mse_sum (noised_output m inputs) (clean_output m inputs) = 0
  rw [h]
  exact keras_mse_sum_self _

/- ----------------------------------------------------------------
Streaming transducer encoder (streaming_transducer.py).

The recurrent cell itself and the TimeReduction layer are imported by the
source from modules outside this repository snapshot; they are modelled
from the spec as below.
---------------------------------------------------------------- -/

/-- Modelled from the spec: the "single-layer recurrent cell (LSTM-like)"
of a streaming block, whose Keras implementation is not in the snapshot.
It is an arbitrary state-transition function consuming one frame at a time,
with a designated zero (initial) state — the state Keras both returns from
get_initial_state and starts from when no initial_state is passed. -/
structure RNNCell (α σ : Type) where
  init : σ
  step : σ → List α → σ × List α

/-- Running a recurrent cell over a sequence of frames from a given state,
returning the output frame sequence and the final state. -/
def runRNN {α σ : Type} (c : RNNCell α σ) : σ → List (List α) → List (List α) × σ
  | s, [] => ([], s)
  | s, x :: xs =>
    ((c.step s x).2 :: (runRNN c (c.step s x).1 xs).1, (runRNN c (c.step s x).1 xs).2)

/-- Modelled from the spec: the TimeReduction layer (imported from a module
outside the snapshot) merges each group of n adjacent frames into one frame
by concatenating their features along the feature axis. -/
def timeReduce {α : Type} (n : ℕ) : List (List α) → List (List α)
  | [] => []
  | x :: xs => (x :: xs.take (n - 1)).flatten :: timeReduce n (xs.drop (n - 1))
termination_by l => l.length
decreasing_by
  simp only [List.length_cons, List.length_drop]
  omega

theorem timeReduce_one {α : Type} (l : List (List α)) : timeReduce 1 l = l := by
  induction l with
  | nil => rw [timeReduce]
  | cons x xs ih =>
    rw [timeReduce]
    simp [ih]

/-- A StreamingTransducerBlock: optional time reduction (a factor of 0
means the reduction layer is absent), a recurrent cell, optional layer
normalization, and a dense projection; the normalization and projection are
per-frame functions. -/
structure StreamingTransducerBlock (α σ : Type) where
  reduction_factor : ℕ
  rnn : RNNCell α σ
  ln : Option (List α → List α)
  projection : List α → List α

/-- The reduction stage of a block: applied only when the factor is
strictly positive, as in the constructor. -/
def applyReduction {α σ : Type} (b : StreamingTransducerBlock α σ)
    (xs : List (List α)) : List (List α) :=
  if b.reduction_factor > 0 then timeReduce b.reduction_factor xs else xs

/-- The optional layer-normalization stage of a block. -/
def applyLn {α σ : Type} (b : StreamingTransducerBlock α σ)
    (xs : List (List α)) : List (List α) :=
  match b.ln with
  | none => xs
  | some f => xs.map f

/-- StreamingTransducerBlock.call (batch mode): reduction, recurrent cell
started from its zero state with the final state discarded, optional layer
normalization, projection. -/
def StreamingTransducerBlock.call {α σ : Type} (b : StreamingTransducerBlock α σ)
    (inputs : List (List α)) : List (List α) :=
  (applyLn b (runRNN b.rnn b.rnn.init (applyReduction b inputs)).1).map b.projection

/-- StreamingTransducerBlock.recognize (streaming mode): the recurrent cell
starts from the caller's state and the new state is returned. -/
def StreamingTransducerBlock.recognize {α σ : Type} (b : StreamingTransducerBlock α σ)
    (inputs : List (List α)) (states : σ) : List (List α) × σ :=
  ((applyLn b (runRNN b.rnn states (applyReduction b inputs)).1).map b.projection,
   (runRNN b.rnn states (applyReduction b inputs)).2)

/-- A StreamingTransducerEncoder: the sequential stack of blocks. The
reshape pre-step merging the two last input axes is applied in call and
recognize below. -/
structure StreamingTransducerEncoder (α σ : Type) where
  blocks : List (StreamingTransducerBlock α σ)

/-- merge_two_last_dims applied per frame: a [F, C] frame becomes a flat
feature list. -/
def reshapeMergeTwoLastDims {α : Type} (inputs : List (List (List α))) : List (List α) :=
  inputs.map List.flatten

/-- The block-threading core of StreamingTransducerEncoder.recognize: each
block consumes its own state slot and contributes the replacement state. -/
def encRecognizeAux {α σ : Type} :
    List (StreamingTransducerBlock α σ) → List (List α) → List σ → List (List α) × List σ
  | [], outputs, _ => (outputs, [])
  | b :: bs, outputs, states =>
    ((encRecognizeAux bs (b.recognize outputs (states.headD b.rnn.init)).1 states.tail).1,
     (b.recognize outputs (states.headD b.rnn.init)).2 ::
       (encRecognizeAux bs (b.recognize outputs (states.headD b.rnn.init)).1 states.tail).2)

/-- StreamingTransducerEncoder.call (batch mode): reshape, then every block
in sequence in batch mode. -/
def StreamingTransducerEncoder.call {α σ : Type} (e : StreamingTransducerEncoder α σ)
    (inputs : List (List (List α))) : List (List α) :=
  e.blocks.foldl (fun acc b => b.call acc) (reshapeMergeTwoLastDims inputs)

/-- StreamingTransducerEncoder.recognize (streaming mode): reshape, then
every block in sequence, threading its state slot. -/
def StreamingTransducerEncoder.recognize {α σ : Type} (e : StreamingTransducerEncoder α σ)
    (inputs : List (List (List α))) (states : List σ) : List (List α) × List σ :=
  encRecognizeAux e.blocks (reshapeMergeTwoLastDims inputs) states

/-- StreamingTransducerEncoder.get_initial_state: the zero state of every
block's recurrent cell, stacked. -/
def StreamingTransducerEncoder.get_initial_state {α σ : Type}
    (e : StreamingTransducerEncoder α σ) : List σ :=
  e.blocks.map (fun b => b.rnn.init)

/-- Calling recognize one frame at a time over a sequence, threading each
returned state into the next call, and concatenating the per-step outputs
along time. -/
def streamRecognize {α σ : Type} (e : StreamingTransducerEncoder α σ) :
    List σ → List (List (List α)) → List (List α)
  | _, [] => []
  | states, x :: xs =>
    (e.recognize [x] states).1 ++ streamRecognize e (e.recognize [x] states).2 xs

/- ----------------------------------------------------------------
Theorems: streaming/batch equivalence (C2).
---------------------------------------------------------------- -/

theorem timeReduce_nil {α : Type} (n : ℕ) : timeReduce n ([] : List (List α)) = [] := by
  rw [timeReduce]

theorem runRNN_append {α σ : Type} (c : RNNCell α σ) (s : σ) (xs ys : List (List α)) :
    runRNN c s (xs ++ ys) =
      ((runRNN c s xs).1 ++ (runRNN c (runRNN c s xs).2 ys).1,
       (runRNN c (runRNN c s xs).2 ys).2) := by
  induction xs generalizing s with
  | nil => simp [runRNN]
  | cons x xs ih => simp [runRNN, ih]

theorem applyLn_append {α σ : Type} (b : StreamingTransducerBlock α σ)
    (xs ys : List (List α)) : applyLn b (xs ++ ys) = applyLn b xs ++ applyLn b ys := by
  unfold applyLn
  cases b.ln <;> simp

theorem applyReduction_one {α σ : Type} (b : StreamingTransducerBlock α σ)
    (hb : b.reduction_factor = 1) (xs : List (List α)) : applyReduction b xs = xs := by
  unfold applyReduction
  rw [hb]
  simp [timeReduce_one]

theorem applyReduction_nil {α σ : Type} (b : StreamingTransducerBlock α σ) :
    applyReduction b ([] : List (List α)) = [] := by
  unfold applyReduction
  split
  · exact timeReduce_nil _
  · rfl

theorem blockRecognize_nil_fst {α σ : Type} (b : StreamingTransducerBlock α σ) (s : σ) :
    (b.recognize [] s).1 = [] := by
  unfold StreamingTransducerBlock.recognize
  rw [applyReduction_nil]
  show (applyLn b []).map b.projection = []
  unfold applyLn
  cases b.ln <;> simp

theorem blockRecognize_append {α σ : Type} (b : StreamingTransducerBlock α σ)
    (hb : b.reduction_factor = 1) (s : σ) (xs ys : List (List α)) :
    b.recognize (xs ++ ys) s =
      ((b.recognize xs s).1 ++ (b.recognize ys (b.recognize xs s).2).1,
       (b.recognize ys (b.recognize xs s).2).2) := by
  unfold StreamingTransducerBlock.recognize
  rw [applyReduction_one b hb, applyReduction_one b hb, applyReduction_one b hb,
    runRNN_append, applyLn_append]
  simp

theorem encRecognizeAux_append {α σ : Type} (bs : List (StreamingTransducerBlock α σ))
    (hb : ∀ b ∈ bs, b.reduction_factor = 1) (xs ys : List (List α)) (states : List σ) :
    encRecognizeAux bs (xs ++ ys) states =
      ((encRecognizeAux bs xs states).1 ++
        (encRecognizeAux bs ys (encRecognizeAux bs xs states).2).1,
       (encRecognizeAux bs ys (encRecognizeAux bs xs states).2).2) := by
  induction bs generalizing xs ys states with
  | nil => simp [encRecognizeAux]
  | cons b bs ih =>
    have hbf : b.reduction_factor = 1 := hb b (List.mem_cons_self b bs)
    have hbs : ∀ q ∈ bs, q.reduction_factor = 1 := fun q hq => hb q (List.mem_cons_of_mem b hq)
    simp only [encRecognizeAux, List.headD_cons, List.tail_cons]
    rw [blockRecognize_append b hbf (states.headD b.rnn.init) xs ys]
    rw [ih hbs]

theorem encRecognizeAux_nil_inputs {α σ : Type} (bs : List (StreamingTransducerBlock α σ))
    (states : List σ) : (encRecognizeAux bs ([] : List (List α)) states).1 = [] := by
  induction bs generalizing states with
  | nil => rfl
  | cons b bs ih =>
    simp only [encRecognizeAux]
    rw [blockRecognize_nil_fst]
    exact ih states.tail

theorem encRecognizeAux_init_fst {α σ : Type} (bs : List (StreamingTransducerBlock α σ))
    (xs : List (List α)) :
    (encRecognizeAux bs xs (bs.map (fun b => b.rnn.init))).1 =
      bs.foldl (fun acc b => b.call acc) xs := by
  induction bs generalizing xs with
  | nil => rfl
  | cons b bs ih =>
    simp only [encRecognizeAux, List.map_cons, List.headD_cons, List.tail_cons, List.foldl_cons]
    rw [ih]
    rfl

theorem streamRecognize_eq_recognize_fst {α σ : Type} (e : StreamingTransducerEncoder α σ)
    (hb : ∀ b ∈ e.blocks, b.reduction_factor = 1) (states : List σ)
    (inputs : List (List (List α))) :
    streamRecognize e states inputs = (e.recognize inputs states).1 := by
  induction inputs generalizing states with
  | nil =>
    show ([] : List (List α)) = _
    rw [StreamingTransducerEncoder.recognize]
    show _ = (encRecognizeAux e.blocks [] states).1
    rw [encRecognizeAux_nil_inputs]
  | cons x xs ih =>
    show (e.recognize [x] states).1 ++ streamRecognize e (e.recognize [x] states).2 xs = _
    rw [ih]
    unfold StreamingTransducerEncoder.recognize reshapeMergeTwoLastDims
    have hsplit : List.map List.flatten (x :: xs) = [x.flatten] ++ List.map List.flatten xs := by
      simp
    rw [hsplit, encRecognizeAux_append e.blocks hb]
    simp

/-- C2: for a streaming encoder whose blocks all have reduction factor 1,
calling recognize one step at a time from the zero state of
get_initial_state, threading each returned state into the next call and
concatenating the per-step outputs along time, equals calling the
batch-mode forward pass once on the full sequence. -/
theorem streaming_batch_equivalence {α σ : Type} (e : StreamingTransducerEncoder α σ)
    (hb : ∀ b ∈ e.blocks, b.reduction_factor = 1) (inputs : List (List (List α))) :
    streamRecognize e e.get_initial_state inputs = e.call inputs := by
  rw [streamRecognize_eq_recognize_fst e hb]
  unfold StreamingTransducerEncoder.recognize StreamingTransducerEncoder.call
    StreamingTransducerEncoder.get_initial_state
  exact encRecognizeAux_init_fst e.blocks _

/-- A concrete streaming block with reduction factor 1: the recurrent cell
accumulates the sum of everything seen into its state and emits it, the
layer normalization slot increments entries, the projection appends a
marker feature. -/
def demoBlock : StreamingTransducerBlock ℕ ℕ where
  reduction_factor := 1
  rnn := { init := 0, step := fun s x => (s + x.sum, [s + x.sum]) }
  ln := some (fun r => r.map (fun v => v + 1))
  projection := fun r => r ++ [7]

/-- A concrete two-block streaming encoder. -/
def demoStreamEncoder : StreamingTransducerEncoder ℕ ℕ where
  blocks := [demoBlock, demoBlock]

/-- A concrete three-step input sequence of [F=2, C=1] frames. -/
def demoStreamInput : List (List (List ℕ)) := [[[1], [2]], [[3], [4]], [[5], [6]]]

theorem demoStreamEncoder_factors :
    ∀ b ∈ demoStreamEncoder.blocks, b.reduction_factor = 1 := by
  intro b hbm
  rcases List.mem_cons.mp hbm with h | h
  · subst h; rfl
  · rcases List.mem_cons.mp h with h2 | h2
    · subst h2; rfl
    · exact absurd h2 (List.not_mem_nil b)

/-- Witness for C2: the equivalence instantiated on the concrete two-block
encoder and three-step input. -/
theorem streaming_batch_equivalence_witness :
    (∀ b ∈ demoStreamEncoder.blocks, b.reduction_factor = 1) ∧
    streamRecognize demoStreamEncoder demoStreamEncoder.get_initial_state demoStreamInput =
      demoStreamEncoder.call demoStreamInput :=
  ⟨demoStreamEncoder_factors,
   streaming_batch_equivalence demoStreamEncoder demoStreamEncoder_factors demoStreamInput⟩

/-- Witness for C5: on the encoder with an empty block stack the branches
coincide and the auxiliary loss is 0. -/
theorem aux_loss_zero_spec_witness :
    noised_output demoEncoderIdentity demoInput = clean_output demoEncoderIdentity demoInput ∧
    (demoEncoderIdentity.call demoInput 3).2 = 0 :=
  ⟨rfl, aux_loss_zero_spec demoEncoderIdentity demoInput 3 rfl⟩
